import Mathlib

/-!
Verification of the Build-a-Bacteria repository: a shallow embedding of the
genetic-circuit model (src/requirements/biology.py), the gameplay-trait
calculators, the procedural phenotype renderer (src/customisation.py and
src/platedisplay.py) and the leaderboard persistence step, together with
theorems settling the specification claims.

Python floats are modelled by rational numbers where the arithmetic is exact
at the inputs under study, and by real numbers where trigonometry enters.
Python `int()` truncation is modelled by `pyIntQ` / `pyIntR`.
-/

/-- Python `int()` applied to a rational: truncation toward zero. -/
def pyIntQ (x : ℚ) : ℤ := if 0 ≤ x then ⌊x⌋ else ⌈x⌉

/-- Python `int()` applied to a real: truncation toward zero. -/
noncomputable def pyIntR (x : ℝ) : ℤ := if 0 ≤ x then ⌊x⌋ else ⌈x⌉

/-- First-match association-list lookup, the behaviour of a Python dict
built from the listed key/value pairs (later duplicates never arise here). -/
def lookupKey (data : List (String × String)) (key : String) : Option String :=
  match data with
  | [] => none
  | (k, v) :: rest => if k = key then some v else lookupKey rest key

namespace Bio

/-- The two kinds of failure raised by biology.py: `validation` models
Python ValueError (invalid enum value or mismatched category), and
`malformedRecord` models the KeyError escaping `from_dict` when a required
key is absent from a persisted record. -/
inductive BioError where
  | validation
  | malformedRecord
deriving DecidableEq

/-- `Promoter`: carries only its strength string (requirements/biology.py). -/
structure Promoter where
  strength : String
deriving DecidableEq

def validStrengths : List String := ["weak", "medium", "strong"]

/-- `Promoter.__init__`: rejects any strength outside the three-value enum. -/
def mkPromoter (strength : String) : Except BioError Promoter :=
  if strength ∈ validStrengths then .ok ⟨strength⟩
  else .error .validation

/-- The `multipliers` dict inside `Promoter.get_expression_level`. -/
def expressionTable : List (String × ℚ) :=
  [("weak", 3/10), ("medium", 7/10), ("strong", 1)]

/-- `Promoter.get_expression_level`: dict lookup on the strength; `none`
models the KeyError an unvalidated strength would raise. -/
def Promoter.getExpressionLevel (p : Promoter) : Option ℚ :=
  match expressionTable.find? (fun kv => kv.1 = p.strength) with
  | some kv => some kv.2
  | none => none

/-- The coding sequences of requirements/biology.py as a closed sum:
`ShapeCDS` holds a shape, `SurfaceCDS` a surface, `ColorCDS` the colour
name together with the hex string resolved from `VALID_COLORS`. -/
inductive CodingSequence where
  | shapeCDS (shape : String)
  | surfaceCDS (surface : String)
  | colorCDS (colorName : String) (colorHex : String)
deriving DecidableEq

/-- The `category` attribute set by each CDS constructor. -/
def CodingSequence.category : CodingSequence → String
  | .shapeCDS _ => "shape"
  | .surfaceCDS _ => "surface"
  | .colorCDS _ _ => "color"

def validShapes : List String := ["spherical", "rod"]

/-- `ShapeCDS.__init__`. -/
def mkShapeCDS (shape : String) : Except BioError CodingSequence :=
  if shape ∈ validShapes then .ok (.shapeCDS shape)
  else .error .validation

def validSurfaces : List String := ["smooth", "rough", "spiky"]

/-- `SurfaceCDS.__init__`. -/
def mkSurfaceCDS (surface : String) : Except BioError CodingSequence :=
  if surface ∈ validSurfaces then .ok (.surfaceCDS surface)
  else .error .validation

/-- `ColorCDS.VALID_COLORS`. -/
def validColors : List (String × String) :=
  [("cyan", "#00FFFF"), ("green", "#00FF00"), ("yellow", "#FFFF00"),
   ("red", "#FF0000"), ("blue", "#0000FF")]

/-- `ColorCDS.__init__`: rejects names outside `VALID_COLORS` and stores
the resolved hex value. -/
def mkColorCDS (colorName : String) : Except BioError CodingSequence :=
  match validColors.find? (fun kv => kv.1 = colorName) with
  | some kv => .ok (.colorCDS colorName kv.2)
  | none => .error .validation

/-- `Circuit`: promoter, auto-attached RBS, the CDS, auto-attached
terminator, and the declared circuit type. -/
structure Circuit where
  promoter : Promoter
  rbsEfficiency : String
  cds : CodingSequence
  terminatorType : String
  circuitType : String
deriving DecidableEq

def validCircuitTypes : List String := ["shape", "surface", "color"]

/-- `Circuit.__init__` of requirements/biology.py: the circuit type must be
one of the three visual categories and must equal the CDS category; on
success the fixed RBS and Terminator are attached. -/
def mkCircuit (promoter : Promoter) (cds : CodingSequence) (circuitType : String) :
    Except BioError Circuit :=
  if circuitType ∉ validCircuitTypes then .error .validation
  else if cds.category ≠ circuitType then .error .validation
  else .ok ⟨promoter, "standard", cds, "standard", circuitType⟩

/-- `Circuit.to_dict`: flat record of promoter strength, circuit type, and
the trait key selected by circuit type plus an isinstance check. -/
def Circuit.toDict (c : Circuit) : List (String × String) :=
  let base := [("promoter_strength", c.promoter.strength),
               ("circuit_type", c.circuitType)]
  match c.cds with
  | .shapeCDS s => if c.circuitType = "shape" then base ++ [("shape", s)] else base
  | .surfaceCDS s => if c.circuitType = "surface" then base ++ [("surface", s)] else base
  | .colorCDS n _ => if c.circuitType = "color" then base ++ [("color_name", n)] else base

/-- `data[key]` on a persisted record: a missing key raises KeyError,
modelled as `malformedRecord`. -/
def getKey (data : List (String × String)) (key : String) : Except BioError String :=
  match lookupKey data key with
  | some v => .ok v
  | none => .error .malformedRecord

/-- The CDS-rebuilding dispatch inside `Circuit.from_dict`: each branch
reads its trait key (raising on absence) and then runs the matching CDS
constructor; an unknown circuit type raises ValueError. -/
def rebuildCDS (data : List (String × String)) (circuitType : String) :
    Except BioError CodingSequence :=
  if circuitType = "shape" then
    match getKey data "shape" with
    | .error e => .error e
    | .ok v => mkShapeCDS v
  else if circuitType = "surface" then
    match getKey data "surface" with
    | .error e => .error e
    | .ok v => mkSurfaceCDS v
  else if circuitType = "color" then
    match getKey data "color_name" with
    | .error e => .error e
    | .ok v => mkColorCDS v
  else
    .error .validation

/-- `Circuit.from_dict`: rebuild the promoter, dispatch on the stored
circuit type to rebuild the CDS, and finally revalidate via the
constructor; every raise propagates in source order. -/
def Circuit.fromDict (data : List (String × String)) : Except BioError Circuit :=
  match getKey data "promoter_strength" with
  | .error e => .error e
  | .ok strength =>
    match mkPromoter strength with
    | .error e => .error e
    | .ok promoter =>
      match getKey data "circuit_type" with
      | .error e => .error e
      | .ok circuitType =>
        match rebuildCDS data circuitType with
        | .error e => .error e
        | .ok cds => mkCircuit promoter cds circuitType

/-- `Bacteria`: the mutable phenotype record, one (value, expression) pair
per visual trait. -/
structure Bacteria where
  shape : String
  shapeExpression : ℚ
  surface : String
  surfaceExpression : ℚ
  color : String
  colorExpression : ℚ
deriving DecidableEq

/-- `Bacteria.__init__` / `reset`: medium rod, medium smooth, strong green. -/
def Bacteria.init : Bacteria :=
  ⟨"rod", 7/10, "smooth", 7/10, "#00FF00", 1⟩

/-- `Bacteria.update_shape`. -/
def Bacteria.updateShape (b : Bacteria) (shape : String) (level : ℚ) : Bacteria :=
  { b with shape := shape, shapeExpression := level }

/-- `Bacteria.update_surface`. -/
def Bacteria.updateSurface (b : Bacteria) (surface : String) (level : ℚ) : Bacteria :=
  { b with surface := surface, surfaceExpression := level }

/-- `Bacteria.update_color`. -/
def Bacteria.updateColor (b : Bacteria) (colorHex : String) (level : ℚ) : Bacteria :=
  { b with color := colorHex, colorExpression := level }

/-- `apply_effect` of the three visual CDS classes: each delegates to the
matching `update_*` mutator with the given expression level. -/
def CodingSequence.applyEffect (cds : CodingSequence) (b : Bacteria) (level : ℚ) : Bacteria :=
  match cds with
  | .shapeCDS s => b.updateShape s level
  | .surfaceCDS s => b.updateSurface s level
  | .colorCDS _ hex => b.updateColor hex level

/-- `Circuit.express`: read the expression level from the promoter and
delegate to the CDS effect; `none` models the KeyError of an invalid
promoter strength. -/
def Circuit.express (c : Circuit) (b : Bacteria) : Option Bacteria :=
  match c.promoter.getExpressionLevel with
  | some level => some (c.cds.applyEffect b level)
  | none => none

end Bio

namespace GameBio

/-- Modelled from the spec: the `biology` module imported by
src/customisation.py (the one additionally defining LifeCDS, SpeedCDS and
SmallCDS, whose Circuit constructor recognises the six trait categories) is
not present under src/; only its callers are. Its coding sequences are the
three visual ones of requirements/biology.py plus the three stateless
gameplay ones. -/
inductive CodingSequence where
  | shapeCDS (shape : String)
  | surfaceCDS (surface : String)
  | colorCDS (colorName : String) (colorHex : String)
  | lifeCDS
  | speedCDS
  | smallCDS
deriving DecidableEq

/-- Modelled from the spec: the `category` tag of each CDS variant in the
missing game biology module (shape/surface/color/life/speed/small). -/
def CodingSequence.category : CodingSequence → String
  | .shapeCDS _ => "shape"
  | .surfaceCDS _ => "surface"
  | .colorCDS _ _ => "color"
  | .lifeCDS => "life"
  | .speedCDS => "speed"
  | .smallCDS => "small"

/-- Modelled from the spec: the six recognised circuit types of the missing
game biology module. -/
def validCircuitTypes : List String :=
  ["shape", "surface", "color", "life", "speed", "small"]

/-- Modelled from the spec: the Circuit record of the missing game biology
module. -/
structure Circuit where
  promoter : Bio.Promoter
  rbsEfficiency : String
  cds : CodingSequence
  terminatorType : String
  circuitType : String
deriving DecidableEq

/-- Modelled from the spec: the Circuit constructor of the missing game
biology module fails with a validation error if the circuit type is not one
of the six recognised trait categories, or if the CDS category differs from
the circuit type; on success the fixed RBS and Terminator are attached. -/
def mkCircuit (promoter : Bio.Promoter) (cds : CodingSequence) (circuitType : String) :
    Except Bio.BioError Circuit :=
  if circuitType ∉ validCircuitTypes then .error .validation
  else if cds.category ≠ circuitType then .error .validation
  else .ok ⟨promoter, "standard", cds, "standard", circuitType⟩

/-- Modelled from the spec: `LifeCDS.get_lives_from_expression` of the
missing game biology module; exact contract weak→1, medium→2, strong→3 at
the canonical expression levels 0.3, 0.7, 1.0, monotonic nondecreasing.
The three-point values match the lives_map of src/scoreboard.py. -/
def getLivesFromExpression (e : ℚ) : ℤ :=
  if 1 ≤ e then 3 else if 7/10 ≤ e then 2 else 1

/-- Modelled from the spec: `SpeedCDS.get_speed_multiplier` of the missing
game biology module; exact contract 0.7 / 1.0 / 1.3 at the canonical
expression levels 0.3, 0.7, 1.0, monotonically increasing. The three-point
values match the speed_map of src/scoreboard.py. -/
def getSpeedMultiplier (e : ℚ) : ℚ :=
  if 1 ≤ e then 13/10 else if 7/10 ≤ e then 1 else 7/10

/-- Modelled from the spec: `SmallCDS.get_size_multiplier` of the missing
game biology module; inverted sense 1.3 / 1.0 / 0.7 at the canonical
expression levels 0.3, 0.7, 1.0, monotonically decreasing. The three-point
values match the size_map of src/scoreboard.py. -/
def getSizeMultiplier (e : ℚ) : ℚ :=
  if 1 ≤ e then 7/10 else if 7/10 ≤ e then 1 else 13/10

end GameBio

namespace Scores

/-- A leaderboard entry as assembled in create_customisation
(src/customisation.py): name, score, the serialized visual and gameplay
circuits, and a timestamp. -/
structure ScoreEntry where
  name : String
  score : ℤ
  visualCircuits : List (String × List (String × String))
  gameplayCircuits : List (String × List (String × String))
  timestamp : String
deriving DecidableEq

/-- The descending-score order used by
`scores.sort(key=lambda x: x["score"], reverse=True)`. -/
def byScoreDesc (a b : ScoreEntry) : Prop := b.score ≤ a.score

instance : DecidableRel byScoreDesc := fun a b => Int.decLe b.score a.score

instance : IsTotal ScoreEntry byScoreDesc := ⟨fun a b => le_total b.score a.score⟩

instance : IsTrans ScoreEntry byScoreDesc :=
  ⟨fun _ _ _ h₁ h₂ => le_trans h₂ h₁⟩

/-- The save step of the GAMEOVER handler in src/customisation.py: append
the new entry to the loaded list, then stable-sort by score descending
(Python list.sort is a stable sort; insertion sort is likewise stable). -/
def saveScores (scores : List ScoreEntry) (entry : ScoreEntry) : List ScoreEntry :=
  List.insertionSort byScoreDesc (scores ++ [entry])

end Scores

namespace Render

/-- A pygame Rect: stored corner and dimensions, with the derived
attributes used by the renderer. -/
structure PyRect where
  left : ℤ
  top : ℤ
  width : ℤ
  height : ℤ
deriving DecidableEq

/-- pygame `Rect.centerx = x + w // 2` (Lean integer division on ℤ rounds
toward minus infinity, exactly like Python `//`). -/
def PyRect.centerx (r : PyRect) : ℤ := r.left + r.width / 2

/-- pygame `Rect.centery = y + h // 2`. -/
def PyRect.centery (r : PyRect) : ℤ := r.top + r.height / 2

/-- pygame `Rect.right = x + w`. -/
def PyRect.rightEdge (r : PyRect) : ℤ := r.left + r.width

/-- pygame `Rect.bottom = y + h`. -/
def PyRect.bottomEdge (r : PyRect) : ℤ := r.top + r.height

/-- `BacteriaPreviewSprite._draw_sphere`: `base_radius = int(size * 0.35)`. -/
def sphereBaseRadius (size : ℤ) : ℤ := pyIntQ ((size : ℚ) * (35/100))

/-- `radius = int(base_radius * (0.7 + 0.3 * expression))`. -/
def sphereRadius (size : ℤ) (expression : ℚ) : ℤ :=
  pyIntQ ((sphereBaseRadius size : ℚ) * (7/10 + 3/10 * expression))

/-- The `shape_rect` stored by `_draw_sphere`: the circle bounds
`Rect(center - radius, center - radius, radius * 2, radius * 2)` where
`center = (size // 2, size // 2)`. -/
def drawSphereRect (size : ℤ) (expression : ℚ) : PyRect :=
  let center := size / 2
  let radius := sphereRadius size expression
  ⟨center - radius, center - radius, radius * 2, radius * 2⟩

/-- The circular/rod classification in
`BacteriaPreviewSprite._draw_surface_texture` (src/customisation.py):
`abs(rect.width - rect.height) < 10`. -/
def previewIsCircular (width height : ℤ) : Bool := decide (|width - height| < 10)

/-- The circular/rod classification in
`SmallBacteriaSprite._draw_surface_texture` (src/platedisplay.py):
`abs(rect.width - rect.height) < 5`. -/
def plateIsCircular (width height : ℤ) : Bool := decide (|width - height| < 5)

/-- Rough texture on a circular body: `num_dots = int(8 + 12 * expression)`. -/
def roughCircularNumDots (expression : ℚ) : ℤ := pyIntQ (8 + 12 * expression)

/-- `dot_radius = int(2 + 2 * expression)`. -/
def roughDotRadius (expression : ℚ) : ℤ := pyIntQ (2 + 2 * expression)

/-- Dot `i` of the rough texture on a circular body: angle
`(i / num_dots) * 2 * pi`, placed at
`(int(center_x + radius * cos(angle)), int(center_y + radius * sin(angle)))`
with `radius = rect.width // 2`. -/
noncomputable def roughCircularDot (rect : PyRect) (numDots : ℤ) (i : ℕ) : ℤ × ℤ :=
  let radius : ℤ := rect.width / 2
  let angle : ℝ := ((i : ℝ) / (numDots : ℝ)) * (2 * Real.pi)
  (pyIntR ((rect.centerx : ℝ) + (radius : ℝ) * Real.cos angle),
   pyIntR ((rect.centery : ℝ) + (radius : ℝ) * Real.sin angle))

/-- Rough texture on a rod body: `num_dots = int(15 + 25 * expression)`. -/
def rodRoughNumDots (expression : ℚ) : ℤ := pyIntQ (15 + 25 * expression)

/-- `half_width = rod_width // 2`, as a real. -/
noncomputable def rodHalfWidth (rect : PyRect) : ℝ := ((rect.width / 2 : ℤ) : ℝ)

/-- `straight_length = rod_height - rod_width`. -/
noncomputable def rodStraight (rect : PyRect) : ℝ := (rect.height : ℝ) - (rect.width : ℝ)

/-- `cap_circumference = math.pi * half_width`. -/
noncomputable def rodCap (rect : PyRect) : ℝ := Real.pi * rodHalfWidth rect

/-- `total_perimeter = 2 * straight_length + 2 * cap_circumference`. -/
noncomputable def rodTotalPerimeter (rect : PyRect) : ℝ :=
  2 * rodStraight rect + 2 * rodCap rect

/-- Dot `i` of the rough texture on a rod body
(src/customisation.py lines 907-937): parameter distance
`(i / num_dots) * total_perimeter`, dispatched over the four perimeter
segments (left straight, top cap, right straight, bottom cap) exactly as in
the source. The returned pair is the float `(dot_x, dot_y)` the source
computes (the cast to pixel integers happens inside the draw call). -/
noncomputable def rodRoughDot (rect : PyRect) (numDots : ℤ) (i : ℕ) : ℝ × ℝ :=
  let hw := rodHalfWidth rect
  let straight := rodStraight rect
  let cap := rodCap rect
  let total := rodTotalPerimeter rect
  let d : ℝ := ((i : ℝ) / (numDots : ℝ)) * total
  if d < straight then
    ((rect.left : ℝ), (rect.top : ℝ) + hw + (d / straight) * straight)
  else if d < straight + cap then
    let angle := Real.pi + ((d - straight) / cap) * Real.pi
    ((rect.centerx : ℝ) + hw * Real.cos angle,
     (rect.top : ℝ) + hw + hw * Real.sin angle)
  else if d < 2 * straight + cap then
    ((rect.rightEdge : ℝ),
     (rect.top : ℝ) + hw + straight - ((d - straight - cap) / straight) * straight)
  else
    let angle := ((d - 2 * straight - cap) / cap) * Real.pi
    ((rect.centerx : ℝ) + hw * Real.cos angle,
     (rect.bottomEdge : ℝ) - hw + hw * Real.sin angle)

/-- The geometric capsule perimeter named by the claim, stated in the words
of the spec rather than of the source: the two straight sides of the
bounding rect (length `height - width` each) and the two semicircular caps
of radius `half_width` centred `half_width` below the top edge and above
the bottom edge. Used to compare the source dot generation against the
geometry it is claimed to trace. -/
def onCapsulePerimeter (rect : PyRect) (p : ℝ × ℝ) : Prop :=
  let hw : ℝ := ((rect.width / 2 : ℤ) : ℝ)
  let straight : ℝ := (rect.height : ℝ) - (rect.width : ℝ)
  let cx : ℝ := (rect.centerx : ℝ)
  (p.1 = (rect.left : ℝ) ∧
     (rect.top : ℝ) + hw ≤ p.2 ∧ p.2 ≤ (rect.top : ℝ) + hw + straight) ∨
  (p.1 = (rect.rightEdge : ℝ) ∧
     (rect.top : ℝ) + hw ≤ p.2 ∧ p.2 ≤ (rect.top : ℝ) + hw + straight) ∨
  ((p.1 - cx) ^ 2 + (p.2 - ((rect.top : ℝ) + hw)) ^ 2 = hw ^ 2 ∧
     p.2 ≤ (rect.top : ℝ) + hw) ∨
  ((p.1 - cx) ^ 2 + (p.2 - ((rect.bottomEdge : ℝ) - hw)) ^ 2 = hw ^ 2 ∧
     (rect.bottomEdge : ℝ) - hw ≤ p.2)

/-- One hexadecimal digit, as read by Python `int(s, 16)`. -/
def hexDigitVal (c : Char) : Option ℕ :=
  if '0' ≤ c ∧ c ≤ '9' then some (c.toNat - '0'.toNat)
  else if 'a' ≤ c ∧ c ≤ 'f' then some (c.toNat - 'a'.toNat + 10)
  else if 'A' ≤ c ∧ c ≤ 'F' then some (c.toNat - 'A'.toNat + 10)
  else none

/-- A two-digit hexadecimal byte, `int(hex_color[i:i+2], 16)`. -/
def hexPairVal (c₁ c₂ : Char) : Option ℕ := do
  let hi ← hexDigitVal c₁
  let lo ← hexDigitVal c₂
  pure (16 * hi + lo)

/-- `BacteriaPreviewSprite._hex_to_rgb`: strip leading hash marks, then read
the three bytes at offsets 0, 2 and 4. -/
def hexToRgb (s : String) : Option (ℕ × ℕ × ℕ) :=
  match s.toList.dropWhile (fun c => c = '#') with
  | c₀ :: c₁ :: c₂ :: c₃ :: c₄ :: c₅ :: _ => do
      let r ← hexPairVal c₀ c₁
      let g ← hexPairVal c₂ c₃
      let b ← hexPairVal c₄ c₅
      pure (r, g, b)
  | _ => none

/-- `BacteriaPreviewSprite._modulate_color`:
`tuple(int(c * expression) for c in color)`. -/
def modulateColor (color : ℕ × ℕ × ℕ) (expression : ℚ) : ℤ × ℤ × ℤ :=
  (pyIntQ ((color.1 : ℚ) * expression),
   pyIntQ ((color.2.1 : ℚ) * expression),
   pyIntQ ((color.2.2 : ℚ) * expression))

end Render

/-!
## Theorems settling the claims
-/

/-- C6: `Promoter.get_expression_level` returns exactly 0.3 for weak, 0.7
for medium and 1.0 for strong, and constructing a Promoter with any other
strength string fails with a validation error. -/
theorem promoter_expression_levels :
    Bio.Promoter.getExpressionLevel ⟨"weak"⟩ = some (3/10) ∧
    Bio.Promoter.getExpressionLevel ⟨"medium"⟩ = some (7/10) ∧
    Bio.Promoter.getExpressionLevel ⟨"strong"⟩ = some 1 ∧
    ∀ s : String, s ∉ Bio.validStrengths → Bio.mkPromoter s = .error .validation := by
  refine ⟨rfl, rfl, rfl, fun s hs => ?_⟩
  rw [Bio.mkPromoter, if_neg hs]

/-- Closed instance of `promoter_expression_levels` discharging its
hypothesis at the invalid strength string "loud". -/
theorem promoter_expression_levels_witness :
    Bio.mkPromoter "loud" = .error .validation :=
  promoter_expression_levels.2.2.2 "loud" (by decide)

/-- C3: at the canonical expression levels 0.3, 0.7 and 1.0 the gameplay
calculators return lives 1, 2, 3, speed multipliers 0.7, 1.0, 1.3 and size
multipliers 1.3, 1.0, 0.7, with the speed multiplier increasing and the
size multiplier decreasing over these levels. -/
theorem gameplay_calculator_values :
    GameBio.getLivesFromExpression (3/10) = 1 ∧
    GameBio.getLivesFromExpression (7/10) = 2 ∧
    GameBio.getLivesFromExpression 1 = 3 ∧
    GameBio.getSpeedMultiplier (3/10) = 7/10 ∧
    GameBio.getSpeedMultiplier (7/10) = 1 ∧
    GameBio.getSpeedMultiplier 1 = 13/10 ∧
    GameBio.getSizeMultiplier (3/10) = 13/10 ∧
    GameBio.getSizeMultiplier (7/10) = 1 ∧
    GameBio.getSizeMultiplier 1 = 7/10 ∧
    GameBio.getSpeedMultiplier (3/10) < GameBio.getSpeedMultiplier (7/10) ∧
    GameBio.getSpeedMultiplier (7/10) < GameBio.getSpeedMultiplier 1 ∧
    GameBio.getSizeMultiplier (7/10) < GameBio.getSizeMultiplier (3/10) ∧
    GameBio.getSizeMultiplier 1 < GameBio.getSizeMultiplier (7/10) := by
  norm_num [GameBio.getLivesFromExpression, GameBio.getSpeedMultiplier,
    GameBio.getSizeMultiplier]

/-- C2: in the six-category circuit model, construction fails with a
validation error exactly when the circuit type is not one of the six
recognised trait categories or the CDS category differs from it, and
succeeds exactly on the matching pairings. -/
theorem circuit_validation_six (p : Bio.Promoter) (cds : GameBio.CodingSequence)
    (ct : String) :
    (GameBio.mkCircuit p cds ct = .error .validation ↔
      ¬ (ct ∈ GameBio.validCircuitTypes ∧ cds.category = ct)) ∧
    ((∃ c, GameBio.mkCircuit p cds ct = .ok c) ↔
      ct ∈ GameBio.validCircuitTypes ∧ cds.category = ct) := by
  unfold GameBio.mkCircuit
  split_ifs with h₁ h₂ <;> simp_all

/-- C8 counterexample: there is no single tolerance shared by the two
places the circular/rod classification is made; at the bounding rect with
width 70 and height 63 the preview renderer classifies circular while the
plate-display renderer classifies rod. -/
theorem no_shared_tolerance :
    Render.previewIsCircular 70 63 = true ∧
    Render.plateIsCircular 70 63 = false ∧
    ¬ ∃ tol : ℤ,
      (∀ w h : ℤ, Render.previewIsCircular w h = decide (|w - h| < tol)) ∧
      (∀ w h : ℤ, Render.plateIsCircular w h = decide (|w - h| < tol)) := by
  refine ⟨by decide, by decide, ?_⟩
  rintro ⟨tol, hp, hq⟩
  have h₁ := hp 70 63
  have h₂ := hq 70 63
  simp only [Render.previewIsCircular, Render.plateIsCircular] at h₁ h₂
  norm_num at h₁ h₂
  omega

/-- C8 amended: each classification site treats the body as circular
exactly when width and height differ by strictly less than its own fixed
tolerance (10 pixels in the preview renderer, 5 pixels in the plate-display
renderer), and a difference of exactly the local tolerance is classified
rod at both sites. -/
theorem classification_tolerances (w h : ℤ) :
    (Render.previewIsCircular w h = true ↔ |w - h| < 10) ∧
    (Render.plateIsCircular w h = true ↔ |w - h| < 5) ∧
    Render.previewIsCircular (w + 10) w = false ∧
    Render.plateIsCircular (w + 5) w = false := by
  refine ⟨by simp [Render.previewIsCircular], by simp [Render.plateIsCircular], ?_, ?_⟩
  · simp [Render.previewIsCircular]
  · simp [Render.plateIsCircular]

/-- C9: appending a score entry to the leaderboard list and saving yields a
list that is a permutation of the prior entries plus exactly the one new
entry (so every prior entry survives unchanged, with multiplicity), sorted
by score in descending order. -/
theorem save_scores_preserves_and_sorts (scores : List Scores.ScoreEntry)
    (e : Scores.ScoreEntry) :
    (Scores.saveScores scores e).Perm (scores ++ [e]) ∧
    List.Sorted Scores.byScoreDesc (Scores.saveScores scores e) ∧
    ∀ x, (Scores.saveScores scores e).count x =
      scores.count x + (if e = x then 1 else 0) := by
  refine ⟨List.perm_insertionSort _ _, List.sorted_insertionSort _ _, fun x => ?_⟩
  have hp := (List.perm_insertionSort Scores.byScoreDesc (scores ++ [e])).count_eq x
  rw [Scores.saveScores, hp, List.count_append]
  simp [List.count_singleton', beq_iff_eq]

/-- C10: expressing a validated visual circuit on a bacteria changes only
the (value, expression) pair of its own category: a shape circuit leaves
the surface and colour fields untouched, and symmetrically for surface and
colour circuits. -/
theorem express_frame (p : Bio.Promoter) (cds : Bio.CodingSequence) (ct : String)
    (c : Bio.Circuit) (b b' : Bio.Bacteria)
    (hc : Bio.mkCircuit p cds ct = .ok c) (he : c.express b = some b') :
    (ct = "shape" → b'.surface = b.surface ∧
       b'.surfaceExpression = b.surfaceExpression ∧
       b'.color = b.color ∧ b'.colorExpression = b.colorExpression) ∧
    (ct = "surface" → b'.shape = b.shape ∧
       b'.shapeExpression = b.shapeExpression ∧
       b'.color = b.color ∧ b'.colorExpression = b.colorExpression) ∧
    (ct = "color" → b'.shape = b.shape ∧
       b'.shapeExpression = b.shapeExpression ∧
       b'.surface = b.surface ∧ b'.surfaceExpression = b.surfaceExpression) := by
  unfold Bio.mkCircuit at hc
  split_ifs at hc with h₁ h₂
  rw [Except.ok.injEq] at hc
  subst hc
  unfold Bio.Circuit.express at he
  cases hm : Bio.Promoter.getExpressionLevel p with
  | none => rw [hm] at he; exact absurd he (by simp)
  | some level =>
    rw [hm] at he
    rw [Option.some.injEq] at he
    subst he
    rw [not_not] at h₂
    subst h₂
    cases cds with
    | shapeCDS s =>
      exact ⟨fun _ => ⟨rfl, rfl, rfl, rfl⟩,
             fun hct => absurd hct (by simp [Bio.CodingSequence.category]),
             fun hct => absurd hct (by simp [Bio.CodingSequence.category])⟩
    | surfaceCDS s =>
      exact ⟨fun hct => absurd hct (by simp [Bio.CodingSequence.category]),
             fun _ => ⟨rfl, rfl, rfl, rfl⟩,
             fun hct => absurd hct (by simp [Bio.CodingSequence.category])⟩
    | colorCDS n hex =>
      exact ⟨fun hct => absurd hct (by simp [Bio.CodingSequence.category]),
             fun hct => absurd hct (by simp [Bio.CodingSequence.category]),
             fun _ => ⟨rfl, rfl, rfl, rfl⟩⟩

/-- Closed instance of `express_frame`: expressing a weak spherical shape
circuit on the default bacteria leaves surface and colour untouched. -/
theorem express_frame_witness :
    (Bio.Bacteria.init.updateShape "spherical" (3/10)).surface =
        Bio.Bacteria.init.surface ∧
      (Bio.Bacteria.init.updateShape "spherical" (3/10)).surfaceExpression =
        Bio.Bacteria.init.surfaceExpression ∧
      (Bio.Bacteria.init.updateShape "spherical" (3/10)).color =
        Bio.Bacteria.init.color ∧
      (Bio.Bacteria.init.updateShape "spherical" (3/10)).colorExpression =
        Bio.Bacteria.init.colorExpression :=
  (express_frame ⟨"weak"⟩ (.shapeCDS "spherical") "shape"
    ⟨⟨"weak"⟩, "standard", .shapeCDS "spherical", "standard", "shape"⟩
    Bio.Bacteria.init (Bio.Bacteria.init.updateShape "spherical" (3/10))
    rfl rfl).1 rfl

/-- C7: `from_dict` on a record whose circuit type is "shape" but which
lacks the "shape" key never constructs a Circuit, and once the record's
promoter strength is present and valid the failure is precisely the
missing-key (malformed record) error rather than any silent default. -/
theorem fromDict_missing_shape (data : List (String × String))
    (hct : lookupKey data "circuit_type" = some "shape")
    (hshape : lookupKey data "shape" = none) :
    (∀ c : Bio.Circuit, Bio.Circuit.fromDict data ≠ .ok c) ∧
    (∀ s p, lookupKey data "promoter_strength" = some s →
      Bio.mkPromoter s = .ok p →
      Bio.Circuit.fromDict data = .error .malformedRecord) := by
  have hcds : Bio.rebuildCDS data "shape" = .error .malformedRecord := by
    unfold Bio.rebuildCDS Bio.getKey
    rw [if_pos rfl, hshape]
  constructor
  · intro c
    cases hps : lookupKey data "promoter_strength" with
    | none => simp [Bio.Circuit.fromDict, Bio.getKey, hps]
    | some s =>
      cases hp : Bio.mkPromoter s with
      | error e => simp [Bio.Circuit.fromDict, Bio.getKey, hps, hp]
      | ok p => simp [Bio.Circuit.fromDict, Bio.getKey, hps, hp, hct, hcds]
  · intro s p hs hp
    simp [Bio.Circuit.fromDict, Bio.getKey, hs, hp, hct, hcds]

/-- Closed instance of `fromDict_missing_shape` at the record
promoter_strength=weak, circuit_type=shape with no shape key. -/
theorem fromDict_missing_shape_witness :
    Bio.Circuit.fromDict [("promoter_strength", "weak"), ("circuit_type", "shape")] =
      .error .malformedRecord :=
  (fromDict_missing_shape [("promoter_strength", "weak"), ("circuit_type", "shape")]
    (by decide) (by decide)).2 "weak" ⟨"weak"⟩ (by decide) rfl

/-- C1: for every validated promoter strength, CDS trait value and circuit
type, `from_dict (to_dict c)` reconstructs the circuit exactly, so in
particular with identical promoter strength, circuit type and trait value. -/
theorem circuit_roundtrip (s v ct : String) (p : Bio.Promoter)
    (cds : Bio.CodingSequence) (c : Bio.Circuit)
    (hp : Bio.mkPromoter s = .ok p)
    (hcds : Bio.mkShapeCDS v = .ok cds ∨ Bio.mkSurfaceCDS v = .ok cds ∨
      Bio.mkColorCDS v = .ok cds)
    (hc : Bio.mkCircuit p cds ct = .ok c) :
    Bio.Circuit.fromDict c.toDict = .ok c := by
  unfold Bio.mkPromoter at hp
  split_ifs at hp with hs
  rw [Except.ok.injEq] at hp
  subst hp
  unfold Bio.mkCircuit at hc
  split_ifs at hc with h₁ h₂
  rw [Except.ok.injEq] at hc
  subst hc
  rw [not_not] at h₂
  subst h₂
  rw [Bio.validStrengths] at hs
  simp only [List.mem_cons, List.mem_singleton, List.not_mem_nil, or_false] at hs
  rcases hcds with h | h | h
  · unfold Bio.mkShapeCDS at h
    split_ifs at h with hv
    rw [Except.ok.injEq] at h
    subst h
    rw [Bio.validShapes] at hv
    simp only [List.mem_cons, List.mem_singleton, List.not_mem_nil, or_false] at hv
    rcases hs with hs | hs | hs <;> rcases hv with hv | hv <;> subst hs <;> subst hv <;> rfl
  · unfold Bio.mkSurfaceCDS at h
    split_ifs at h with hv
    rw [Except.ok.injEq] at h
    subst h
    rw [Bio.validSurfaces] at hv
    simp only [List.mem_cons, List.mem_singleton, List.not_mem_nil, or_false] at hv
    rcases hs with hs | hs | hs <;> rcases hv with hv | hv | hv <;> subst hs <;> subst hv <;>
      rfl
  · unfold Bio.mkColorCDS at h
    rcases hfind : Bio.validColors.find? (fun kv => kv.1 = v) with _ | ⟨name, hex⟩ <;>
      rw [hfind] at h
    · exact absurd h (by simp)
    · rw [Except.ok.injEq] at h
      subst h
      have hpred : name = v := by
        have hsome := List.find?_some hfind
        simpa using hsome
      subst hpred
      have hmem : (name, hex) ∈ Bio.validColors := List.mem_of_find?_eq_some hfind
      rw [Bio.validColors] at hmem
      simp only [List.mem_cons, List.mem_singleton, List.not_mem_nil, or_false,
        Prod.mk.injEq] at hmem
      rcases hs with hs | hs | hs <;> subst hs <;>
        rcases hmem with ⟨h₁, h₂⟩ | ⟨h₁, h₂⟩ | ⟨h₁, h₂⟩ | ⟨h₁, h₂⟩ | ⟨h₁, h₂⟩ <;>
        subst h₁ <;> subst h₂ <;> rfl

/-- Closed instance of `circuit_roundtrip` at the medium rod shape circuit. -/
theorem circuit_roundtrip_witness :
    Bio.Circuit.fromDict (Bio.Circuit.toDict
      ⟨⟨"medium"⟩, "standard", .shapeCDS "rod", "standard", "shape"⟩) =
    .ok ⟨⟨"medium"⟩, "standard", .shapeCDS "rod", "standard", "shape"⟩ :=
  circuit_roundtrip "medium" "rod" "shape" ⟨"medium"⟩ (.shapeCDS "rod")
    ⟨⟨"medium"⟩, "standard", .shapeCDS "rod", "standard", "shape"⟩
    rfl (Or.inl rfl) rfl

/-- Numeric bounds on the cosine of pi/7, the angle of dot 1 among 14
evenly spaced dots, via the quartic Taylor bound. -/
theorem cos_pi_div_seven_bounds :
    31/35 < Real.cos (Real.pi/7) ∧ Real.cos (Real.pi/7) < 32/35 := by
  have hπl : (3.141592 : ℝ) < Real.pi := Real.pi_gt_d6
  have hπu : Real.pi < 3.141593 := Real.pi_lt_d6
  set a : ℝ := Real.pi / 7 with ha
  have ha0 : 0 < a := by rw [ha]; positivity
  have ha1 : (0.448798 : ℝ) < a := by rw [ha]; linarith
  have ha2 : a < 0.4487991 := by rw [ha]; linarith
  have habs : |a| ≤ 1 := by rw [abs_of_nonneg ha0.le]; linarith
  have hb := Real.cos_bound habs
  rw [abs_of_nonneg ha0.le, abs_le] at hb
  obtain ⟨hb1, hb2⟩ := hb
  have hsq1 : a^2 < 0.20142065 := by nlinarith
  have hsq2 : (0.20141955 : ℝ) < a^2 := by nlinarith
  have hq : a^4 < 0.0405703 := by nlinarith
  constructor
  · nlinarith
  · nlinarith

/-- Numeric bounds on the sine of pi/7 via the quartic Taylor bound. -/
theorem sin_pi_div_seven_bounds :
    15/35 ≤ Real.sin (Real.pi/7) ∧ Real.sin (Real.pi/7) < 16/35 := by
  have hπl : (3.141592 : ℝ) < Real.pi := Real.pi_gt_d6
  have hπu : Real.pi < 3.141593 := Real.pi_lt_d6
  set a : ℝ := Real.pi / 7 with ha
  have ha0 : 0 < a := by rw [ha]; positivity
  have ha1 : (0.448798 : ℝ) < a := by rw [ha]; linarith
  have ha2 : a < 0.4487991 := by rw [ha]; linarith
  have habs : |a| ≤ 1 := by rw [abs_of_nonneg ha0.le]; linarith
  have hb := Real.sin_bound habs
  rw [abs_of_nonneg ha0.le, abs_le] at hb
  obtain ⟨hb1, hb2⟩ := hb
  have hsq1 : a^2 < 0.20142065 := by nlinarith
  have hsq2 : (0.20141955 : ℝ) < a^2 := by nlinarith
  have hcub1 : a^3 < 0.0903977 := by nlinarith
  have hcub2 : (0.0903965 : ℝ) < a^3 := by nlinarith
  have hq : a^4 < 0.0405703 := by nlinarith
  constructor
  · nlinarith
  · nlinarith

/-- At size 100 and shape intensity 1 the sphere pass draws radius 35. -/
theorem sphereRadius_100_1 : Render.sphereRadius 100 1 = 35 := by
  unfold Render.sphereRadius Render.sphereBaseRadius pyIntQ
  norm_num

/-- The stored sphere bounds at size 100, intensity 1. -/
theorem drawSphereRect_100_1 : Render.drawSphereRect 100 1 = ⟨15, 15, 70, 70⟩ := by
  unfold Render.drawSphereRect
  rw [sphereRadius_100_1]
  rfl

/-- C4 counterexample: in the scenario of the claim (size 100, shape
intensity 1, rough intensity 0.5), dot 1 of the 14 rough dots is drawn at
pixel centre (81, 65), and that point does not lie on the radius-35 circle
around (50, 50): the source truncates each coordinate with int() before
drawing, so the stated property fails at this concrete input. -/
theorem sphere_rough_dot_off_circle :
    Render.roughCircularDot (Render.drawSphereRect 100 1) 14 1 = (81, 65) ∧
    ((81 : ℝ) - 50) ^ 2 + ((65 : ℝ) - 50) ^ 2 ≠ 35 ^ 2 := by
  constructor
  · rw [drawSphereRect_100_1]
    unfold Render.roughCircularDot
    have hangle : ((1 : ℕ) : ℝ) / ((14 : ℤ) : ℝ) * (2 * Real.pi) = Real.pi / 7 := by
      push_cast
      ring
    have hrad : ((70 : ℤ) / 2 : ℤ) = 35 := by decide
    have hcx : Render.PyRect.centerx ⟨15, 15, 70, 70⟩ = 50 := by decide
    have hcy : Render.PyRect.centery ⟨15, 15, 70, 70⟩ = 50 := by decide
    simp only [hrad, hcx, hcy, hangle]
    have hc := cos_pi_div_seven_bounds
    have hs := sin_pi_div_seven_bounds
    have hx : pyIntR ((50 : ℤ) + ((35 : ℤ) : ℝ) * Real.cos (Real.pi / 7)) = 81 := by
      unfold pyIntR
      rw [if_pos (by push_cast; nlinarith [hc.1, hc.2])]
      rw [Int.floor_eq_iff]
      constructor
      · push_cast
        nlinarith [hc.1]
      · push_cast
        nlinarith [hc.2]
    have hy : pyIntR ((50 : ℤ) + ((35 : ℤ) : ℝ) * Real.sin (Real.pi / 7)) = 65 := by
      unfold pyIntR
      rw [if_pos (by push_cast; nlinarith [hs.1, hs.2])]
      rw [Int.floor_eq_iff]
      constructor
      · push_cast
        nlinarith [hs.1]
      · push_cast
        nlinarith [hs.2]
    rw [Prod.mk.injEq]
    exact ⟨hx, hy⟩
  · norm_num

/-- Every rough dot on a circular body is the coordinatewise int()
truncation of a point at exactly the body radius from the body centre. -/
theorem roughCircularDot_truncates_circle_point (rect : Render.PyRect) (n : ℤ) (i : ℕ) :
    ∃ x y : ℝ,
      (x - (rect.centerx : ℝ)) ^ 2 + (y - (rect.centery : ℝ)) ^ 2 =
        ((rect.width / 2 : ℤ) : ℝ) ^ 2 ∧
      Render.roughCircularDot rect n i = (pyIntR x, pyIntR y) := by
  refine ⟨(rect.centerx : ℝ) +
      ((rect.width / 2 : ℤ) : ℝ) * Real.cos (((i : ℝ) / ((n : ℤ) : ℝ)) * (2 * Real.pi)),
    (rect.centery : ℝ) +
      ((rect.width / 2 : ℤ) : ℝ) * Real.sin (((i : ℝ) / ((n : ℤ) : ℝ)) * (2 * Real.pi)),
    ?_, rfl⟩
  have hpyth := Real.sin_sq_add_cos_sq (((i : ℝ) / ((n : ℤ) : ℝ)) * (2 * Real.pi))
  linear_combination (((rect.width / 2 : ℤ) : ℝ) ^ 2) * hpyth

/-- C4 amended: rendering the claimed phenotype (spherical, shape intensity
1.0, rough at intensity 0.5, colour #00FF00 at intensity 1.0, size 100)
yields a body circle of radius exactly 35 classified circular, exactly 14
rough dots, fill colour exactly (0, 255, 0), and each dot centre is the
coordinatewise int() truncation of a point lying exactly on the edge of the
radius-35 circle around (50, 50). -/
theorem sphere_rough_scenario :
    Render.sphereRadius 100 1 = 35 ∧
    Render.drawSphereRect 100 1 = ⟨15, 15, 70, 70⟩ ∧
    Render.previewIsCircular (Render.drawSphereRect 100 1).width
      (Render.drawSphereRect 100 1).height = true ∧
    Render.roughCircularNumDots (1/2) = 14 ∧
    (Render.hexToRgb "#00FF00").map (fun c => Render.modulateColor c 1) =
      some (0, 255, 0) ∧
    ∀ i : Fin 14, ∃ x y : ℝ,
      (x - 50) ^ 2 + (y - 50) ^ 2 = 35 ^ 2 ∧
      Render.roughCircularDot (Render.drawSphereRect 100 1) 14 i = (pyIntR x, pyIntR y) := by
  refine ⟨sphereRadius_100_1, drawSphereRect_100_1, ?_, ?_, ?_, ?_⟩
  · rw [drawSphereRect_100_1]; decide
  · unfold Render.roughCircularNumDots pyIntQ
    norm_num
  · have h1 : Render.hexToRgb "#00FF00" = some (0, 255, 0) := by rfl
    rw [h1]
    show some (Render.modulateColor (0, 255, 0) 1) = some (0, 255, 0)
    unfold Render.modulateColor pyIntQ
    norm_num
  · intro i
    obtain ⟨x, y, hxy, heq⟩ :=
      roughCircularDot_truncates_circle_point (Render.drawSphereRect 100 1) 14 i
    refine ⟨x, y, ?_, heq⟩
    rw [drawSphereRect_100_1] at hxy
    have hcx : ((Render.PyRect.mk 15 15 70 70).centerx : ℝ) = 50 := by
      norm_num [Render.PyRect.centerx]
    have hcy : ((Render.PyRect.mk 15 15 70 70).centery : ℝ) = 50 := by
      norm_num [Render.PyRect.centery]
    have hrw : (((Render.PyRect.mk 15 15 70 70).width / 2 : ℤ) : ℝ) = 35 := by
      norm_num
    rw [hcx, hcy, hrw] at hxy
    exact hxy

/-- C5 amended: for a rod-classified body with height greater than width,
the rough pass places int(15 + 25 * intensity) dots; its four parameter
segments have exactly the geometric lengths height - width (each straight
side) and pi * half-width (each cap), summing to the capsule perimeter; and
every generated dot centre lies on that capsule perimeter (left straight
side, right straight side, or one of the two semicircular caps). -/
theorem rod_rough_dots_on_capsule (rect : Render.PyRect) (s : ℚ) (i : ℕ)
    (h0w : 0 ≤ rect.width) (hwh : rect.width < rect.height)
    (hrod : Render.previewIsCircular rect.width rect.height = false)
    (hs : 0 ≤ s) (hi : (i : ℤ) < Render.rodRoughNumDots s) :
    Render.rodRoughNumDots s = ⌊(15 : ℚ) + 25 * s⌋ ∧
    Render.rodStraight rect = (rect.height : ℝ) - (rect.width : ℝ) ∧
    Render.rodCap rect = Real.pi * ((rect.width / 2 : ℤ) : ℝ) ∧
    Render.rodTotalPerimeter rect = 2 * Render.rodStraight rect + 2 * Render.rodCap rect ∧
    Render.onCapsulePerimeter rect
      (Render.rodRoughDot rect (Render.rodRoughNumDots s) i) := by
  have hcount : Render.rodRoughNumDots s = ⌊(15 : ℚ) + 25 * s⌋ := by
    unfold Render.rodRoughNumDots pyIntQ
    rw [if_pos (by positivity)]
  refine ⟨hcount, rfl, rfl, rfl, ?_⟩
  have hn15 : 15 ≤ Render.rodRoughNumDots s := by
    rw [hcount]
    exact Int.le_floor.mpr (by push_cast; linarith)
  have hnR : (0 : ℝ) < ((Render.rodRoughNumDots s : ℤ) : ℝ) := by
    exact_mod_cast lt_of_lt_of_le (by norm_num) hn15
  have hw0 : (0 : ℝ) ≤ Render.rodHalfWidth rect := by
    unfold Render.rodHalfWidth
    exact_mod_cast Int.ediv_nonneg h0w (by norm_num)
  have hst0 : (0 : ℝ) < Render.rodStraight rect := by
    unfold Render.rodStraight
    have : (rect.width : ℝ) < (rect.height : ℝ) := by exact_mod_cast hwh
    linarith
  have hcap0 : (0 : ℝ) ≤ Render.rodCap rect :=
    mul_nonneg Real.pi_pos.le hw0
  have hsteq : Render.rodStraight rect = (rect.height : ℝ) - (rect.width : ℝ) := rfl
  have htot0 : (0 : ℝ) < Render.rodTotalPerimeter rect := by
    unfold Render.rodTotalPerimeter
    linarith
  have hd0 : (0 : ℝ) ≤
      ((i : ℝ) / ((Render.rodRoughNumDots s : ℤ) : ℝ)) * Render.rodTotalPerimeter rect :=
    mul_nonneg (div_nonneg (Nat.cast_nonneg i) hnR.le) htot0.le
  have hdlt :
      ((i : ℝ) / ((Render.rodRoughNumDots s : ℤ) : ℝ)) * Render.rodTotalPerimeter rect <
        Render.rodTotalPerimeter rect := by
    have hi' : (i : ℝ) < ((Render.rodRoughNumDots s : ℤ) : ℝ) := by exact_mod_cast hi
    calc ((i : ℝ) / ((Render.rodRoughNumDots s : ℤ) : ℝ)) * Render.rodTotalPerimeter rect
        < 1 * Render.rodTotalPerimeter rect := by
          apply mul_lt_mul_of_pos_right _ htot0
          rw [div_lt_one hnR]
          exact hi'
      _ = Render.rodTotalPerimeter rect := one_mul _
  unfold Render.rodRoughDot
  dsimp only
  set d : ℝ :=
    ((i : ℝ) / ((Render.rodRoughNumDots s : ℤ) : ℝ)) * Render.rodTotalPerimeter rect with hd
  split_ifs with h1 h2 h3
  · -- left straight side
    unfold Render.onCapsulePerimeter
    refine Or.inl ⟨rfl, ?_, ?_⟩ <;>
      dsimp only <;>
      rw [div_mul_cancel₀ _ (ne_of_gt hst0)] <;>
      unfold Render.rodHalfWidth <;>
      [linarith; linarith]
  · -- top cap
    have hcappos : (0 : ℝ) < Render.rodCap rect := by
      by_contra hle
      push_neg at hle
      have : d < Render.rodStraight rect := by linarith
      exact h1 this
    have hu0 : 0 ≤ (d - Render.rodStraight rect) / Render.rodCap rect :=
      div_nonneg (by linarith) hcappos.le
    have hu1 : (d - Render.rodStraight rect) / Render.rodCap rect < 1 := by
      rw [div_lt_one hcappos]
      linarith
    set u : ℝ := (d - Render.rodStraight rect) / Render.rodCap rect with hu
    have hsin : Real.sin (Real.pi + u * Real.pi) ≤ 0 := by
      have hcomm : Real.pi + u * Real.pi = u * Real.pi + Real.pi := by ring
      rw [hcomm, Real.sin_add_pi]
      have : 0 ≤ Real.sin (u * Real.pi) := by
        apply Real.sin_nonneg_of_nonneg_of_le_pi
        · exact mul_nonneg hu0 Real.pi_pos.le
        · calc u * Real.pi ≤ 1 * Real.pi :=
              mul_le_mul_of_nonneg_right hu1.le Real.pi_pos.le
            _ = Real.pi := one_mul _
      linarith
    unfold Render.onCapsulePerimeter
    refine Or.inr (Or.inr (Or.inl ⟨?_, ?_⟩)) <;> dsimp only
    · have hpyth := Real.sin_sq_add_cos_sq (Real.pi + u * Real.pi)
      unfold Render.rodHalfWidth
      linear_combination (((rect.width / 2 : ℤ) : ℝ) ^ 2) * hpyth
    · have := mul_nonneg hw0 (by linarith : (0 : ℝ) ≤ -Real.sin (Real.pi + u * Real.pi))
      unfold Render.rodHalfWidth at this ⊢
      nlinarith
  · -- right straight side
    unfold Render.onCapsulePerimeter
    refine Or.inr (Or.inl ⟨rfl, ?_, ?_⟩) <;>
      dsimp only <;>
      rw [div_mul_cancel₀ _ (ne_of_gt hst0)] <;>
      unfold Render.rodHalfWidth <;>
      [linarith; linarith]
  · -- bottom cap
    have hcappos : (0 : ℝ) < Render.rodCap rect := by
      by_contra hle
      push_neg at hle
      have htoteq : Render.rodTotalPerimeter rect =
          2 * Render.rodStraight rect + 2 * Render.rodCap rect := rfl
      have : d < 2 * Render.rodStraight rect + Render.rodCap rect := by
        rw [htoteq] at hdlt
        linarith
      exact h3 this
    have hu0 : 0 ≤ (d - 2 * Render.rodStraight rect - Render.rodCap rect) / Render.rodCap rect := by
      apply div_nonneg _ hcappos.le
      push_neg at h3
      linarith
    have hu1 : (d - 2 * Render.rodStraight rect - Render.rodCap rect) / Render.rodCap rect < 1 := by
      rw [div_lt_one hcappos]
      have htoteq : Render.rodTotalPerimeter rect =
          2 * Render.rodStraight rect + 2 * Render.rodCap rect := rfl
      rw [htoteq] at hdlt
      linarith
    set u : ℝ := (d - 2 * Render.rodStraight rect - Render.rodCap rect) / Render.rodCap rect
      with hu
    have hsin : 0 ≤ Real.sin (u * Real.pi) := by
      apply Real.sin_nonneg_of_nonneg_of_le_pi
      · exact mul_nonneg hu0 Real.pi_pos.le
      · calc u * Real.pi ≤ 1 * Real.pi :=
            mul_le_mul_of_nonneg_right hu1.le Real.pi_pos.le
          _ = Real.pi := one_mul _
    unfold Render.onCapsulePerimeter
    refine Or.inr (Or.inr (Or.inr ⟨?_, ?_⟩)) <;> dsimp only
    · have hpyth := Real.sin_sq_add_cos_sq (u * Real.pi)
      unfold Render.rodHalfWidth
      linear_combination (((rect.width / 2 : ℤ) : ℝ) ^ 2) * hpyth
    · have := mul_nonneg hw0 hsin
      unfold Render.rodHalfWidth at this ⊢
      linarith

/-- C5 counterexample: at the canonical medium surface intensity 0.7 the
rod rough pass places int(15 + 25 * 0.7) = 32 dots, not the exact
15 + 25 * 0.7 = 32.5 of the claim formula: the count is truncated. -/
theorem rod_rough_count_truncated :
    Render.rodRoughNumDots (7/10) = 32 ∧
    ((Render.rodRoughNumDots (7/10) : ℚ) ≠ 15 + 25 * (7/10)) := by
  have h : Render.rodRoughNumDots (7/10) = 32 := by
    unfold Render.rodRoughNumDots pyIntQ
    norm_num
  refine ⟨h, ?_⟩
  rw [h]
  norm_num

/-- Closed instance of `rod_rough_dots_on_capsule`: dot 0 at full intensity
on the 4 by 20 rod lies on the capsule perimeter. -/
theorem rod_rough_dots_on_capsule_witness :
    Render.onCapsulePerimeter ⟨0, 0, 4, 20⟩
      (Render.rodRoughDot ⟨0, 0, 4, 20⟩ (Render.rodRoughNumDots 1) 0) :=
  (rod_rough_dots_on_capsule ⟨0, 0, 4, 20⟩ 1 0 (by decide) (by decide) (by decide)
    (by norm_num) (by norm_num [Render.rodRoughNumDots, pyIntQ])).2.2.2.2
